import Mathlib

/-!
Verification development for the personal-finance-analyzer core
(`src/load_data.py` and the data-processing entry point of `app.py`).

The pandas pipeline is shallowly embedded: a DataFrame becomes a `Table`
(column labels plus a grid of `Cell`s), numeric amounts become `ℚ`, the
external date parser (`pd.to_datetime`) and the external fuzzy scorer
(`rapidfuzz.fuzz.partial_ratio`) are parameters of the corresponding
functions, and row-level failures (NaN) are modelled with `Option`.
-/

/-- A raw cell of a tabular input: missing (pandas `NaN`), a string, or a
number.  `pd.read_csv` materializes every field as one of these. -/
inductive Cell where
  | na : Cell
  | str (s : String) : Cell
  | num (q : ℚ) : Cell
deriving DecidableEq

/-- `pd.notna`: every cell except `NaN` is considered present. -/
def cellNotNa : Cell → Bool
  | Cell.na => false
  | _ => true

/-- Python `str(val)` on a cell value; `str(nan) = "nan"`.  (For numeric
cells Python prints a float literal; the exact text only feeds keyword
searches over alphabetic keywords, so `ℚ`'s printer is an adequate
stand-in.) -/
def showCell : Cell → String
  | Cell.na => "nan"
  | Cell.str s => s
  | Cell.num q => toString q

/-- Character-list lowering, Python `str.lower` (ASCII is what the column
labels and keywords use). -/
def strLower (s : String) : String :=
  ⟨s.data.map Char.toLower⟩

/-- Python `str.strip()`: remove leading and trailing whitespace. -/
def strTrim (s : String) : String :=
  ⟨((s.data.dropWhile Char.isWhitespace).reverse.dropWhile Char.isWhitespace).reverse⟩

/-- Does `pat` occur as a contiguous substring of the list?  (Python's
`in` on strings.) -/
def containsSub (pat : List Char) : List Char → Bool
  | [] => pat.isEmpty
  | c :: rest => pat.isPrefixOf (c :: rest) || containsSub pat rest

/-- Python `pat in s` for strings. -/
def strContains (s pat : String) : Bool :=
  containsSub pat.data s.data

/-- Replace every (non-overlapping, left-to-right) occurrence of `pat` by
`rep`, Python `str.replace`.  Fuel-indexed so that the recursion is
structural and kernel-reducible; the fuel is the input length, which
always suffices because each step consumes at least one character. -/
def replaceAux (pat rep : List Char) : Nat → List Char → List Char
  | _, [] => []
  | 0, l => l
  | f + 1, c :: rest =>
    if pat ≠ [] ∧ pat.isPrefixOf (c :: rest) then
      rep ++ replaceAux pat rep f ((c :: rest).drop pat.length)
    else
      c :: replaceAux pat rep f rest

/-- Python `s.replace(pat, rep)` (for non-empty `pat`, the only use). -/
def strReplace (s pat rep : String) : String :=
  ⟨replaceAux pat.data rep.data s.data.length s.data⟩

/-!
Kernel-reducible rational arithmetic.  Mathlib's `Rat.add`, `Rat.mul`,
`Rat.inv` and `Rat.sub` are `@[irreducible]`, so concrete pipeline runs
could not be evaluated by `decide`/`rfl` through them.  The embedding
therefore computes with the following `Rat.divInt`-based operations;
bridge lemmas below prove each equal to the corresponding Mathlib
operation, so the algebraic theorems can still use the standard ones.
-/

def qAdd (a b : ℚ) : ℚ := Rat.divInt (a.num * b.den + b.num * a.den) ((a.den : ℤ) * b.den)

def qNeg (a : ℚ) : ℚ := Rat.divInt (-a.num) a.den

def qSub (a b : ℚ) : ℚ := qAdd a (qNeg b)

def qMul (a b : ℚ) : ℚ := Rat.divInt (a.num * b.num) ((a.den : ℤ) * b.den)

def qDiv (a b : ℚ) : ℚ := Rat.divInt (a.num * b.den) ((a.den : ℤ) * b.num)

def qAbs (a : ℚ) : ℚ := if a < 0 then qNeg a else a

def qSum (l : List ℚ) : ℚ := l.foldr qAdd 0

theorem qAdd_eq (a b : ℚ) : qAdd a b = a + b := by
  conv_rhs => rw [← Rat.num_divInt_den a, ← Rat.num_divInt_den b]
  rw [Rat.divInt_add_divInt _ _ (by exact_mod_cast a.den_ne_zero) (by exact_mod_cast b.den_ne_zero)]
  rfl

theorem qNeg_eq (a : ℚ) : qNeg a = -a := by
  rw [qNeg, ← Rat.neg_def]

theorem qSub_eq (a b : ℚ) : qSub a b = a - b := by
  rw [qSub, qAdd_eq, qNeg_eq, ← sub_eq_add_neg]

theorem qMul_eq (a b : ℚ) : qMul a b = a * b := by
  conv_rhs => rw [← Rat.num_divInt_den a, ← Rat.num_divInt_den b]
  rw [Rat.divInt_mul_divInt']
  rfl

theorem qDiv_eq (a b : ℚ) : qDiv a b = a / b := by
  rw [Rat.div_def']
  rfl

theorem qAbs_eq (a : ℚ) : qAbs a = |a| := by
  rw [qAbs]
  split
  · rw [qNeg_eq, abs_of_neg]
    assumption
  · rw [abs_of_nonneg]
    linarith

theorem qSum_eq (l : List ℚ) : qSum l = l.sum := by
  induction l with
  | nil => rfl
  | cons x t ih => rw [qSum, List.foldr_cons, ← qSum, ih, qAdd_eq, List.sum_cons]

/-- Value of a list of decimal digits. -/
def digitsVal (l : List Char) : Nat :=
  l.foldl (fun n c => 10 * n + (c.toNat - 48)) 0

/-- Parse a non-empty all-digit run. -/
def parseDigits (l : List Char) : Option Nat :=
  if l ≠ [] ∧ l.all Char.isDigit then some (digitsVal l) else none

/-- Parse an unsigned decimal literal: `123`, `123.45`, `.5`, `5.`. -/
def parseUnsigned (l : List Char) : Option ℚ :=
  match l.splitOn '.' with
  | [ip] => (parseDigits ip).map (fun n => (n : ℚ))
  | [ip, fp] =>
    if ip.all Char.isDigit ∧ fp.all Char.isDigit ∧ (ip ≠ [] ∨ fp ≠ []) then
      some (Rat.divInt (digitsVal ip * 10 ^ fp.length + digitsVal fp) (10 ^ fp.length))
    else none
  | _ => none

/-- Python `float(s)` on the decimal literals that bank exports contain
(optional sign, digits, optional fractional part); anything else is a
parse failure.  (Exponent forms and the literals `nan`/`inf`, which
`float` also accepts, do not occur in the modelled inputs.) -/
def parseFloat (s : String) : Option ℚ :=
  match s.data with
  | '-' :: rest => (parseUnsigned rest).map (fun q => -q)
  | '+' :: rest => parseUnsigned rest
  | l => parseUnsigned l

/-- The numeric-cell parse used for the debit/credit columns
(`load_data.py` lines 156–193 and 228–240): missing cells become `'0'`
(`fillna`), a literal `--` becomes `0`, thousands-separator commas are
stripped, the result is trimmed, empty text parses to `0`, and any
unparseable leftover also defaults to `0`.  A numeric cell round-trips
through `str`/`float` unchanged, modelled as the identity. -/
def parseMoneyStr (s : String) : ℚ :=
  let s1 := if s = "--" then "0" else s
  let s2 := strTrim (strReplace (strReplace s1 "," "") "--" "0")
  if s2 = "" ∨ s2 = "--" then 0 else (parseFloat s2).getD 0

def parseMoney : Cell → ℚ
  | Cell.na => 0
  | Cell.num q => q
  | Cell.str s => parseMoneyStr s

/-- The slightly different parse of the debit-only branch
(`load_data.py` lines 204–226): `--` is replaced by the empty string
(not `'0'`), and the explicit check is against `''` and `'0'`. -/
def parseMoneyDebitStr (s : String) : ℚ :=
  let s2 := strTrim (strReplace (strReplace s "," "") "--" "")
  if s2 = "" ∨ s2 = "0" then 0 else (parseFloat s2).getD 0

def parseMoneyDebit : Cell → ℚ
  | Cell.na => 0
  | Cell.num q => q
  | Cell.str s => parseMoneyDebitStr s

/-- A calendar date (time-of-day is discarded by the pipeline). -/
structure Date where
  y : Nat
  m : Nat
  d : Nat
deriving DecidableEq

/-- A concrete date parser accepting ISO `YYYY-MM-DD` strings, standing in
for the external `pd.to_datetime(..., errors="coerce")`: `some` models a
successful parse, `none` the `NaT` produced by `coerce`.
`load_and_clean_expenses` below is parametric in the date parser, so the
theorems about it hold for any parser; this one instantiates witnesses. -/
def isoDateParse : Cell → Option Date
  | Cell.na => none
  | Cell.num _ => none
  | Cell.str s =>
    match (strTrim s).data.splitOn '-' with
    | [ys, ms, ds] =>
      match parseDigits ys, parseDigits ms, parseDigits ds with
      | some y, some m, some d =>
        if 0 < y ∧ 1 ≤ m ∧ m ≤ 12 ∧ 1 ≤ d ∧ d ≤ 31 then some ⟨y, m, d⟩ else none
      | _, _, _ => none
    | _ => none

/-- A pandas DataFrame: column labels plus a row-major grid of cells.
Rows are positionally aligned with the labels (`getCell` pads missing
positions with `NaN`, as a DataFrame would). -/
structure Table where
  cols : List String
  rows : List (List Cell)
deriving DecidableEq

/-- Cell of a row at column position `j`. -/
def getCell (r : List Cell) (j : Nat) : Cell :=
  r.getD j Cell.na

/-- The keyword set of `detect_and_skip_header` (`load_data.py` line 19). -/
def headerKeywords : List String :=
  ["trans", "date", "description", "debit", "credit", "narration"]

/-- `' '.join(str(val).lower() for val in row.values if pd.notna(val))`. -/
def rowString (r : List Cell) : String :=
  ⟨List.intercalate [' '] (((r.filter cellNotNa).map (fun c => (strLower (showCell c)).data)))⟩

/-- Does a row look like a header row? -/
def rowHasKeyword (r : List Cell) : Bool :=
  headerKeywords.any (fun k => strContains (rowString r) k)

/-- The scan loop of `detect_and_skip_header`: examine rows top-down,
spending one unit of fuel per row (the caller passes 20, mirroring
`range(min(20, len(df)))`), and return the index of the first row whose
joined text contains a header keyword. -/
def scanHeader (fuel : Nat) (rows : List (List Cell)) : Option Nat :=
  match fuel, rows with
  | 0, _ => none
  | _, [] => none
  | f + 1, r :: rest =>
    if rowHasKeyword r then some 0
    else (scanHeader f rest).map (· + 1)

/-- `detect_and_skip_header` (`load_data.py` lines 5–29): find the header
row among the first 20 rows; on a hit, promote that row's values to the
column labels and keep only the rows strictly below it; otherwise return
the input unchanged. -/
def detect_and_skip_header (t : Table) : Table :=
  match scanHeader 20 t.rows with
  | some i => { cols := (t.rows.getD i []).map showCell, rows := t.rows.drop (i + 1) }
  | none => t

/-- Keep only the column positions satisfying `keep`, dropping the
corresponding cell of every row (rows are padded first so that cells stay
aligned with labels, as they are in a DataFrame). -/
def padTo (n : Nat) (r : List Cell) : List Cell :=
  (r.take n) ++ List.replicate (n - r.length) Cell.na

def keepPositions (t : Table) (keep : Nat → Bool) : Table :=
  { cols := (t.cols.enum.filter (fun p => keep p.1)).map (fun p => p.2),
    rows := t.rows.map (fun r => (((padTo t.cols.length r).enum.filter (fun p => keep p.1)).map (fun p => p.2))) }

/-- `df.drop(columns=names)`: drop every column whose label is listed. -/
def dropByLabel (t : Table) (names : List String) : Table :=
  keepPositions t (fun j => ¬ names.contains (t.cols.getD j ""))

/-- Column labels after `str(c).strip().lower()` (`load_data.py` lines 81–89). -/
def lowerCols (t : Table) : Table :=
  { cols := t.cols.map (fun c => strLower (strTrim c)), rows := t.rows }

/-- Duplicate-label handling (`load_data.py` lines 92–95): the `k`-th
occurrence of a repeated label gets the suffix `.k` (`k ≥ 1`); the first
occurrence, and unique labels, are unchanged. -/
def dedupLabels (cs : List String) : List String :=
  cs.enum.map (fun p =>
    let k := ((cs.take p.1).filter (fun c => c = p.2)).length
    if k = 0 then p.2 else p.2 ++ "." ++ toString k)

/-- `df.dropna(axis=1, how='all')`: drop columns with no present value. -/
def dropAllNaCols (t : Table) : Table :=
  keepPositions t (fun j => t.rows.any (fun r => cellNotNa (getCell r j)))

/-- Count of missing cells in column `j`. -/
def naCount (t : Table) (j : Nat) : Nat :=
  (t.rows.filter (fun r => ¬ cellNotNa (getCell r j))).length

/-- Drop `unnamed` columns that are mostly empty
(`load_data.py` lines 101–109): label contains `"unnamed"` and more than
half of the column is missing (`isna().sum() > len(df) * 0.5`). -/
def dropUnnamedMostlyEmpty (t : Table) : Table :=
  keepPositions t (fun j =>
    ¬ (strContains (strLower (t.cols.getD j "")) "unnamed" ∧ 2 * naCount t j > t.rows.length))

/-- Python `int(...)` on a cell, as `astype(int)` applies it: floats
truncate toward zero, strings must be (signed) integer literals,
otherwise the conversion raises (modelled as `none`). -/
def cellToInt : Cell → Option Int
  | Cell.na => none
  | Cell.num q => some (if q < 0 then -((-q).floor) else q.floor)
  | Cell.str s =>
    match (strTrim s).data with
    | '-' :: rest => (parseDigits rest).map (fun n => -(n : Int))
    | '+' :: rest => (parseDigits rest).map (fun n => (n : Int))
    | l => (parseDigits l).map (fun n => (n : Int))

/-- Drop a leading `unnamed` column whose present values, cast to `int`,
are exactly `0, 1, 2, …` — a row-number artifact
(`load_data.py` lines 112–120).  If the cast raises, nothing is dropped. -/
def dropSeqFirstCol (t : Table) : Table :=
  match t.cols with
  | [] => t
  | c0 :: _ =>
    if strContains (strLower c0) "unnamed" then
      let vals := (t.rows.map (fun r => getCell r 0)).filter cellNotNa
      match vals.mapM cellToInt with
      | some ints =>
        if ints = (List.range vals.length).map (fun n => (n : Int)) then
          keepPositions t (fun j => j ≠ 0)
        else t
      | none => t
    else t

/-- Strip `(`, `)` and `?` before keyword matching (`load_data.py` line 129). -/
def simplifyLabel (c : String) : String :=
  ⟨(strLower (strTrim c)).data.filter (fun ch => ch ≠ '(' ∧ ch ≠ ')' ∧ ch ≠ '?')⟩

/-- The column-role rules of `load_data.py` lines 122–149, in source
order and mutually exclusive: description, then transaction-date (only
without `"value"`), then debit-not-credit, then credit-not-debit. -/
def canonicalRole (c : String) : Option String :=
  let s := simplifyLabel c
  if strContains s "desc" ∨ strContains s "narration" ∨ strContains s "details" ∨ strContains s "particular" then
    some "description"
  else if (strContains s "trans" ∧ strContains s "date") ∨ strContains s "transdate" then
    if strContains s "value" then none else some "date"
  else if strContains s "debit" ∧ ¬ strContains s "credit" then
    some "debit"
  else if strContains s "credit" ∧ ¬ strContains s "debit" then
    some "credit"
  else
    none

/-- `df.rename(columns=mapping)` for the mapping built above. -/
def renameCanonical (t : Table) : Table :=
  { cols := t.cols.map (fun c => (canonicalRole c).getD c), rows := t.rows }

/-- Temporary columns created and dropped by the debit/credit branch
(`load_data.py` line 199), plus the source columns themselves.  A
pre-existing column with one of the temporary names would be overwritten
and then dropped, so dropping by label is faithful. -/
def debitCreditDropList : List String :=
  ["debit", "credit", "debit_clean", "credit_clean", "debit_amount", "credit_amount"]

/-- Position of the first column with the given label (`name in
df.columns` and `df[name]` use the first occurrence). -/
def colIdx (cs : List String) (name : String) : Option Nat :=
  match cs with
  | [] => none
  | c :: t => if c = name then some 0 else (colIdx t name).map (· + 1)

/-- `df['amount'] = vals`: overwrite an existing `amount` column, or
append a new one at the right edge. -/
def setAmount (t : Table) (vals : List Cell) : Table :=
  match colIdx t.cols "amount" with
  | some j =>
    { cols := t.cols, rows := (t.rows.zip vals).map (fun p => (padTo t.cols.length p.1).set j p.2) }
  | none =>
    { cols := t.cols ++ ["amount"], rows := (t.rows.zip vals).map (fun p => padTo t.cols.length p.1 ++ [p.2]) }

/-- Amount reconciliation (`load_data.py` lines 154–240): both debit and
credit present ⇒ `amount = credit − debit`; only debit ⇒
`amount = −debit` (with the slightly different parse of that branch);
only credit ⇒ `amount = credit`; neither ⇒ unchanged (a pre-existing
`amount` column, if any, is used as-is downstream). -/
def reconcile (t : Table) : Table :=
  match colIdx t.cols "debit", colIdx t.cols "credit" with
  | some jd, some jc =>
    setAmount (dropByLabel t debitCreditDropList)
      (t.rows.map (fun r => Cell.num (qSub (parseMoney (getCell r jc)) (parseMoney (getCell r jd)))))
  | some jd, none =>
    setAmount (dropByLabel t ["debit"])
      (t.rows.map (fun r => Cell.num (qNeg (parseMoneyDebit (getCell r jd)))))
  | none, some jc =>
    setAmount (dropByLabel t ["credit"])
      (t.rows.map (fun r => Cell.num (parseMoney (getCell r jc))))
  | none, none => t

/-- All preprocessing of `load_and_clean_expenses` up to and including
amount reconciliation: optional header detection, label normalization,
label dedup, empty/unnamed/row-number column drops, canonical renaming,
then reconciliation. -/
def preprocess (skip_header_detection : Bool) (t : Table) : Table :=
  let t0 := if skip_header_detection then t else detect_and_skip_header t
  reconcile (renameCanonical (dropSeqFirstCol (dropUnnamedMostlyEmpty (dropAllNaCols
    { cols := dedupLabels (lowerCols t0).cols, rows := (lowerCols t0).rows }))))

def requiredCols : List String := ["date", "description", "amount"]

/-- The `ValueError` of `load_data.py` lines 244–249, which the spec's
taxonomy calls `SchemaError`: it reports the required columns and the
columns actually found. -/
structure SchemaError where
  required : List String
  found : List String
deriving DecidableEq

/-- A cleaned transaction: parsed date, description cell, amount cell. -/
structure Txn where
  date : Date
  description : Cell
  amount : Cell
deriving DecidableEq

/-- `df[required]`: the (date, description, amount) cells of each row. -/
def selectTriples (t : Table) : List (Cell × Cell × Cell) :=
  let jda := (colIdx t.cols "date").getD 0
  let jde := (colIdx t.cols "description").getD 0
  let jam := (colIdx t.cols "amount").getD 0
  t.rows.map (fun r => (getCell r jda, getCell r jde, getCell r jam))

/-- The final cleaning stage (`load_data.py` lines 257–262): parse the
date column with `errors="coerce"`, drop rows where date, amount or
description is missing, then drop rows whose amount compares equal to
`0` (a Python string never does). -/
def cellNeZero : Cell → Bool
  | Cell.num q => q ≠ 0
  | Cell.str _ => true
  | Cell.na => true

def cleanRows (dateParse : Cell → Option Date) (l : List (Cell × Cell × Cell)) : List Txn :=
  (l.filterMap (fun x =>
    match dateParse x.1 with
    | none => none
    | some dt =>
      if cellNotNa x.2.1 ∧ cellNotNa x.2.2 then some ⟨dt, x.2.1, x.2.2⟩ else none)).filter
    (fun tx => cellNeZero tx.amount)

instance {ε α : Type} [DecidableEq ε] [DecidableEq α] : DecidableEq (Except ε α) := fun x y =>
  match x, y with
  | Except.ok a, Except.ok b =>
    if h : a = b then isTrue (by rw [h]) else isFalse (fun hh => h (Except.ok.inj hh))
  | Except.error a, Except.error b =>
    if h : a = b then isTrue (by rw [h]) else isFalse (fun hh => h (Except.error.inj hh))
  | Except.ok _, Except.error _ => isFalse (fun hh => Except.noConfusion hh)
  | Except.error _, Except.ok _ => isFalse (fun hh => Except.noConfusion hh)

/-- `load_and_clean_expenses` (`load_data.py` lines 47–264), parametric
in the external date parser.  Returns the cleaned transactions, or the
schema error when a canonical column cannot be established. -/
def load_and_clean_expenses (dateParse : Cell → Option Date) (skip_header_detection : Bool)
    (t : Table) : Except SchemaError (List Txn) :=
  let t1 := preprocess skip_header_detection t
  if requiredCols.all (fun c => t1.cols.contains c) then
    Except.ok (cleanRows dateParse (selectTriples t1))
  else
    Except.error ⟨requiredCols, t1.cols⟩

/-- The keyword catalog (`load_data.py` lines 32–45), in source
(insertion) order. -/
def CATEGORIES : List (String × List String) :=
  [("Food & Dining", ["restaurant", "shawarma", "kfc", "mcdonald", "eat", "shoprite",
                      "ubereats", "food", "cafe", "pizza", "chicken", "burger"]),
   ("Transport", ["uber", "bolt", "taxi", "fuel", "gas", "bus", "transport", "fare"]),
   ("Utilities", ["electricity", "water", "internet", "dstv", "mtn", "data", "airtime",
                  "nepa", "phcn", "ikedc", "ekedc"]),
   ("Shopping", ["amazon", "jumia", "mall", "shop", "konga", "store", "market"]),
   ("Income", ["salary", "payroll", "interest earned", "bonus", "credit", "deposit", "transfer in", "earned"]),
   ("Savings", ["owealth", "auto-save", "auto save", "withdrawal(transaction payment)",
                "save", "investment", "balance"]),
   ("Entertainment", ["netflix", "dstv", "cinema", "movie", "game", "spotify"]),
   ("Healthcare", ["hospital", "pharmacy", "doctor", "clinic", "medical", "health"]),
   ("Other", [])]

/-- `categorize_transaction` (`load_data.py` lines 266–292), parametric
in the fuzzy scorer `sc` (the external `fuzz.partial_ratio`, a 0–100
similarity): lower the description, walk the catalog skipping `"Other"`,
and keep the best (category, score) with `score > best and score > 70`. -/
def categorize_transaction (sc : String → String → Nat) (description : String) : String :=
  let desc := strLower description
  (CATEGORIES.foldl
    (fun acc p =>
      if p.1 = "Other" then acc
      else p.2.foldl
        (fun acc2 kw =>
          let score := sc (strLower kw) desc
          if score > acc2.2 ∧ score > 70 then (p.1, score) else acc2)
        acc)
    ("Other", 0)).1

/-- `df[column].mean()`. -/
def listMean (xs : List ℚ) : ℚ :=
  qDiv (qSum xs) ((xs.length : ℚ))

/-- `df[column].std()`: the pandas sample standard deviation
(`ddof = 1`); it is `NaN` (here `none`) when the series has fewer than
two values.  To stay inside `ℚ` the model carries the variance
`std²`; for a positive variance `v` and non-negative threshold `t`,
`|x − mean| / √v > t  ↔  (x − mean)² > t² · v`, which is how the z-score
comparison below is expressed. -/
def sampleVar (xs : List ℚ) : Option ℚ :=
  if 2 ≤ xs.length then
    some (qDiv (qSum (xs.map (fun x => qMul (qSub x (listMean xs)) (qSub x (listMean xs)))))
      (qSub ((xs.length : ℚ)) 1))
  else none

/-- `detect_anomalies` (`load_data.py` lines 294–318): if the standard
deviation is zero, nothing is anomalous; if it is `NaN` (fewer than two
rows), every comparison `NaN > threshold` is false, so nothing is
anomalous either; otherwise flag `|x − mean| / std > threshold`
(squared, see `sampleVar`; the pipeline's threshold is the non-negative
default 3). -/
def detect_anomalies (xs : List ℚ) (threshold : ℚ) : List Bool :=
  match sampleVar xs with
  | none => xs.map (fun _ => false)
  | some v =>
    if v = 0 then xs.map (fun _ => false)
    else xs.map (fun x => qMul (qMul threshold threshold) v < qMul (qSub x (listMean xs)) (qSub x (listMean xs)))

/-- The population variance (`ddof = 0`) — what the spec's
"population standard deviation" squares to.  Used only to state claims;
the code above uses `sampleVar`. -/
def popVar (xs : List ℚ) : ℚ :=
  qDiv (qSum (xs.map (fun x => qMul (qSub x (listMean xs)) (qSub x (listMean xs)))))
    ((xs.length : ℚ))

/-- `calculate_net_flow` (`load_data.py` lines 367–390). -/
structure NetFlow where
  income : ℚ
  expenses : ℚ
  net : ℚ
  savings_rate : ℚ
deriving DecidableEq

def calculate_net_flow (xs : List ℚ) : NetFlow :=
  let income := qSum (xs.filter (fun x => 0 < x))
  let expenses := qAbs (qSum (xs.filter (fun x => x < 0)))
  let net := qSub income expenses
  { income := income, expenses := expenses, net := net,
    savings_rate := if 0 < income then qMul (qDiv net income) 100 else 0 }

/-- `round(2)`: two-decimal rounding.  (`numpy` rounds half to even;
half-way cases do not arise in the verified statements, so half-up is
used.) -/
def round2 (q : ℚ) : ℚ :=
  Rat.divInt ((qAdd (qMul q 100) (Rat.divInt 1 2)).num.fdiv (qAdd (qMul q 100) (Rat.divInt 1 2)).den) 100

/-- The distinct categories, in first-appearance order.  (pandas sorts
group keys, which can only influence the relative order of categories
with equal totals; no verified statement depends on tie order.) -/
def uniqueKeys : List String → List String
  | [] => []
  | c :: t => c :: (uniqueKeys t).filter (fun x => x ≠ c)

/-- One row of `calculate_category_stats`: per-category sum, mean and
count of `amount`, rounded to two decimals. -/
structure CatStat where
  category : String
  total : ℚ
  average : ℚ
  count : Nat
deriving DecidableEq

def statsFor (txs : List (String × ℚ)) (c : String) : CatStat :=
  let amts := (txs.filter (fun p => p.1 = c)).map (fun p => p.2)
  { category := c, total := round2 (qSum amts),
    average := round2 (qDiv (qSum amts) ((amts.length : ℚ))), count := amts.length }

/-- Descending order on the (rounded) totals, as
`sort_values('Total', ascending=False)`. -/
def catGE (a b : CatStat) : Prop := b.total ≤ a.total

instance : DecidableRel catGE := fun a b => inferInstanceAs (Decidable (b.total ≤ a.total))

instance : IsTotal CatStat catGE := ⟨fun a b => le_total b.total a.total⟩

instance : IsTrans CatStat catGE := ⟨fun _ _ _ h1 h2 => le_trans h2 h1⟩

/-- `calculate_category_stats` (`load_data.py` lines 345–365) on the
(category, amount) pairs of a cleaned table: group by category,
aggregate, and sort by total descending. -/
def calculate_category_stats (txs : List (String × ℚ)) : List CatStat :=
  List.insertionSort catGE ((uniqueKeys (txs.map (fun p => p.1))).map (statsFor txs))

/-- `'YYYY-MM'`, the string form of `date.dt.to_period('M')`. -/
def monthStr (d : Date) : String :=
  toString d.y ++ "-" ++ (if d.m < 10 then "0" ++ toString d.m else toString d.m)

/-- A fully annotated transaction, as produced by `process_data`. -/
structure AnnotatedTxn where
  date : Date
  description : Cell
  amount : Cell
  category : String
  is_anomaly : Bool
  month : String
deriving DecidableEq

inductive PipeError where
  | schema (e : SchemaError) : PipeError
  | typeErr : PipeError
deriving DecidableEq

/-- The numeric amounts of the cleaned rows; `none` when some amount is
not numeric, in which case the pandas reductions inside
`detect_anomalies` raise (surfaced by `app.py`'s error handler). -/
def amountsQ : List Txn → Option (List ℚ) :=
  List.mapM (fun tx =>
    match tx.amount with
    | Cell.num q => some q
    | _ => none)

/-- `process_data` (`app.py` lines 279–303), parametric in the fuzzy
scorer and the date parser.  The grid `g` is the parsed upload.  Manual
mode models `pd.read_csv(skiprows=range(0, k), header=0)`: row `k`
becomes the header (missing header cells read as `unnamed: j`), rows
below are data, and a leading `unnamed` column is stripped.  Automatic
mode reads with row 0 as header and defers to keyword detection inside
`load_and_clean_expenses`.  The cleaned rows are then annotated with
category, anomaly flag and month. -/
def headerLabels (r : List Cell) : List String :=
  r.enum.map (fun p =>
    match p.2 with
    | Cell.na => "unnamed: " ++ toString p.1
    | c => showCell c)

def gridHeader (k : Nat) (g : List (List Cell)) : Table :=
  { cols := headerLabels (g.getD k []), rows := g.drop (k + 1) }

def dropLeadingUnnamed (t : Table) : Table :=
  match t.cols with
  | [] => t
  | c0 :: _ => if strContains (strLower c0) "unnamed" then keepPositions t (fun j => j ≠ 0) else t

def annotate (sc : String → String → Nat) (txns : List Txn) (flags : List Bool) : List AnnotatedTxn :=
  txns.enum.map (fun p =>
    { date := p.2.date, description := p.2.description, amount := p.2.amount,
      category := categorize_transaction sc (showCell p.2.description),
      is_anomaly := flags.getD p.1 false,
      month := monthStr p.2.date })

def process_data (sc : String → String → Nat) (dateParse : Cell → Option Date)
    (manual_mode : Bool) (header_row_idx : Nat) (g : List (List Cell)) :
    Except PipeError (List AnnotatedTxn) :=
  let t0 := if manual_mode then dropLeadingUnnamed (gridHeader header_row_idx g) else gridHeader 0 g
  match load_and_clean_expenses dateParse manual_mode t0 with
  | Except.error e => Except.error (PipeError.schema e)
  | Except.ok txns =>
    match amountsQ txns with
    | none => Except.error PipeError.typeErr
    | some qs => Except.ok (annotate sc txns (detect_anomalies qs 3))

/-!  ## Theorems about the claims  -/

/-- C5: for every TransactionSet, `calculate_net_flow` returns income
equal to the sum of the positive amounts, expenses equal to the absolute
value of the sum of the negative amounts, net equal to income minus
expenses, and a savings rate of `net/income × 100` when income is
positive and `0` otherwise; consequently income and expenses are
non-negative. -/
theorem c5_theorem (xs : List ℚ) :
    (calculate_net_flow xs).income = (xs.filter (fun x => 0 < x)).sum
    ∧ (calculate_net_flow xs).expenses = |(xs.filter (fun x => x < 0)).sum|
    ∧ (calculate_net_flow xs).net = (calculate_net_flow xs).income - (calculate_net_flow xs).expenses
    ∧ (calculate_net_flow xs).savings_rate =
        (if 0 < (calculate_net_flow xs).income
         then (calculate_net_flow xs).net / (calculate_net_flow xs).income * 100 else 0)
    ∧ 0 ≤ (calculate_net_flow xs).income
    ∧ 0 ≤ (calculate_net_flow xs).expenses := by
  refine ⟨?_, ?_, ?_, ?_, ?_, ?_⟩
  · simp only [calculate_net_flow, qSum_eq]
  · simp only [calculate_net_flow, qAbs_eq, qSum_eq]
  · simp only [calculate_net_flow, qSub_eq]
  · simp only [calculate_net_flow, qMul_eq, qDiv_eq, qSub_eq]
  · simp only [calculate_net_flow, qSum_eq]
    refine List.sum_nonneg ?_
    intro x hx
    have hp := (List.mem_filter.mp hx).2
    have hp2 : 0 < x := by exact_mod_cast of_decide_eq_true hp
    exact le_of_lt hp2
  · simp only [calculate_net_flow, qAbs_eq]
    exact abs_nonneg _

/-- C10: on a single-transaction set the sample standard deviation is
undefined (`NaN`, modelled `none`), so the zero-deviation guard is not
taken, yet every `NaN` comparison is false, so the single row is never
flagged as an anomaly. -/
theorem c10_theorem (x t : ℚ) :
    sampleVar [x] = none ∧ detect_anomalies [x] t = [false] :=
  ⟨rfl, rfl⟩

/-- C9: the pipeline is deterministic — two runs of `process_data` on the
same raw grid and the same configuration (manual flag, header row index,
and the same external scorer/parser) produce identical annotated
transaction sets.  The embedding is a pure function, mirroring the
stateless core. -/
theorem c9_theorem (sc : String → String → Nat) (dp : Cell → Option Date)
    (manual : Bool) (k : Nat) (g : List (List Cell))
    (r1 r2 : Except PipeError (List AnnotatedTxn))
    (h1 : r1 = process_data sc dp manual k g)
    (h2 : r2 = process_data sc dp manual k g) : r1 = r2 :=
  h1.trans h2.symm

def c9grid : List (List Cell) :=
  [[Cell.str "junk"],
   [Cell.str "trans date", Cell.str "description", Cell.str "debit", Cell.str "credit"],
   [Cell.str "2024-01-05", Cell.str "a", Cell.str "1000", Cell.str "0"]]

theorem c9_witness :
    process_data (fun _ _ => 0) isoDateParse true 1 c9grid =
      process_data (fun _ _ => 0) isoDateParse true 1 c9grid :=
  c9_theorem (fun _ _ => 0) isoDateParse true 1 c9grid _ _ rfl rfl

/-- C2: whenever, after column mapping and reconciliation, one of the
canonical columns {date, description, amount} is absent,
`load_and_clean_expenses` fails with the schema error naming the
required and the found columns, and no cleaned table is returned. -/
theorem c2_theorem (dp : Cell → Option Date) (skip : Bool) (t : Table)
    (h : requiredCols.all (fun c => (preprocess skip t).cols.contains c) = false) :
    ∃ e : SchemaError, load_and_clean_expenses dp skip t = Except.error e
      ∧ e.required = ["date", "description", "amount"]
      ∧ e.found = (preprocess skip t).cols
      ∧ ∀ txns, load_and_clean_expenses dp skip t ≠ Except.ok txns := by
  refine ⟨⟨requiredCols, (preprocess skip t).cols⟩, ?_, rfl, rfl, ?_⟩
  · simp only [load_and_clean_expenses, h]
    rfl
  · intro txns hok
    simp only [load_and_clean_expenses, h] at hok
    cases hok

def c2Table : Table := ⟨["Description", "Amount"], [[Cell.str "x", Cell.num 1]]⟩

theorem c2_witness :
    requiredCols.all (fun c => (preprocess true c2Table).cols.contains c) = false
    ∧ ∃ e : SchemaError, load_and_clean_expenses isoDateParse true c2Table = Except.error e
      ∧ e.required = ["date", "description", "amount"]
      ∧ e.found = (preprocess true c2Table).cols
      ∧ ∀ txns, load_and_clean_expenses isoDateParse true c2Table ≠ Except.ok txns :=
  ⟨by decide, c2_theorem isoDateParse true c2Table (by decide)⟩

/-- C1, counterexample: the cleaning pipeline does emit rows with an
empty-string description (only *null* descriptions are dropped by
`dropna`), and rows whose amount is the *string* `"0"` (the `!= 0`
comparison is false only for numeric zero).  Both survive below. -/
def c1Table : Table :=
  ⟨["date", "description", "amount"],
   [[Cell.str "2024-01-05", Cell.str "", Cell.num 5],
    [Cell.str "2024-01-06", Cell.str "x", Cell.str "0"]]⟩

theorem c1_counterexample :
    (load_and_clean_expenses isoDateParse true c1Table).toOption.map (List.map Txn.description)
      = some [Cell.str "", Cell.str "x"]
    ∧ (load_and_clean_expenses isoDateParse true c1Table).toOption.map (List.map Txn.amount)
      = some [Cell.num 5, Cell.str "0"] := by decide

/-- C1, amended: every transaction emitted by `load_and_clean_expenses`
has a non-null description, an amount that the code's `!= 0` filter
accepts (a numeric amount is therefore non-zero; a string amount always
passes), and a date obtained from a successful parse of the
corresponding source cell. -/
theorem c1_theorem (dp : Cell → Option Date) (skip : Bool) (t : Table) (txns : List Txn)
    (h : load_and_clean_expenses dp skip t = Except.ok txns) :
    ∀ tx ∈ txns, cellNotNa tx.description = true ∧ cellNeZero tx.amount = true ∧
      ∃ c ∈ selectTriples (preprocess skip t),
        dp c.1 = some tx.date ∧ c.2.1 = tx.description ∧ c.2.2 = tx.amount := by
  intro tx htx
  by_cases hcond : requiredCols.all (fun c => (preprocess skip t).cols.contains c) = true
  · simp only [load_and_clean_expenses, hcond, if_pos] at h
    have hEq : cleanRows dp (selectTriples (preprocess skip t)) = txns := Except.ok.inj h
    rw [← hEq] at htx
    rw [cleanRows] at htx
    obtain ⟨hmem, hnez⟩ := List.mem_filter.mp htx
    obtain ⟨c, hc, hfc⟩ := List.mem_filterMap.mp hmem
    cases hdp : dp c.1 with
    | none =>
      rw [hdp] at hfc
      cases hfc
    | some d =>
      rw [hdp] at hfc
      dsimp only at hfc
      by_cases hna : cellNotNa c.2.1 = true ∧ cellNotNa c.2.2 = true
      · rw [if_pos hna] at hfc
        have htxd : tx = ⟨d, c.2.1, c.2.2⟩ := (Option.some.inj hfc).symm
        subst htxd
        exact ⟨hna.1, hnez, c, hc, hdp, rfl, rfl⟩
      · rw [if_neg hna] at hfc
        cases hfc
  · simp only [load_and_clean_expenses, hcond, if_neg] at h
    cases h

def c1tx1 : Txn := ⟨⟨2024, 1, 5⟩, Cell.str "", Cell.num 5⟩

def c1tx2 : Txn := ⟨⟨2024, 1, 6⟩, Cell.str "x", Cell.str "0"⟩

theorem c1_witness :
    load_and_clean_expenses isoDateParse true c1Table = Except.ok [c1tx1, c1tx2]
    ∧ (cellNotNa c1tx1.description = true ∧ cellNeZero c1tx1.amount = true ∧
        ∃ c ∈ selectTriples (preprocess true c1Table),
          isoDateParse c.1 = some c1tx1.date ∧ c.2.1 = c1tx1.description ∧ c.2.2 = c1tx1.amount) :=
  ⟨by decide,
   c1_theorem isoDateParse true c1Table [c1tx1, c1tx2] (by decide) c1tx1 (by decide)⟩

/-!  Helper lemmas for the anomaly detector.  -/

theorem map_false_eq_replicate (xs : List ℚ) :
    xs.map (fun _ => false) = List.replicate xs.length false := by
  induction xs with
  | nil => rfl
  | cons x t ih => simp [List.replicate, ih]

theorem getD_replicate_false (n i : Nat) : (List.replicate n false).getD i false = false := by
  induction n generalizing i with
  | zero => rfl
  | succ m ih =>
    cases i with
    | zero => rfl
    | succ j => simp [ih j]

theorem getD_map_of_lt (f : ℚ → Bool) (xs : List ℚ) (i : Nat) (hi : i < xs.length) :
    (xs.map f).getD i false = f (xs.getD i 0) := by
  induction xs generalizing i with
  | nil => simp at hi
  | cons x tl ih =>
    cases i with
    | zero => rfl
    | succ j =>
      have hj : j < tl.length := by simpa using hi
      simpa using ih j hj

theorem qSum_replicate (n : Nat) (x : ℚ) : qSum (List.replicate n x) = n * x := by
  rw [qSum_eq, List.sum_replicate, nsmul_eq_mul]

theorem listMean_replicate (n : Nat) (x : ℚ) (hn : n ≠ 0) :
    listMean (List.replicate n x) = x := by
  rw [listMean, qDiv_eq, qSum_replicate, List.length_replicate]
  exact mul_div_cancel_left₀ x (Nat.cast_ne_zero.mpr hn)

theorem detect_replicate (n : Nat) (x t : ℚ) :
    detect_anomalies (List.replicate n x) t = List.replicate n false := by
  match n with
  | 0 => rfl
  | 1 => rfl
  | (m + 2) =>
    have hmean : listMean (List.replicate (m + 2) x) = x := listMean_replicate _ _ (by omega)
    have hvar : sampleVar (List.replicate (m + 2) x) = some 0 := by
      rw [sampleVar, if_pos (by simp)]
      rw [hmean, List.map_replicate]
      simp [qSub_eq, qMul_eq, qSum_replicate, qDiv_eq]
    rw [detect_anomalies, hvar]
    simp [map_false_eq_replicate]

/-- C3, counterexample: the code computes the z-score with the pandas
*sample* standard deviation (`ddof = 1`), not the population standard
deviation.  On the set below (nine `1`s, nine `−1`s and one `9/2`) the
outlier's population z-score exceeds 3 — squared,
`(x − mean)² > 3² · popVar`, equivalent to `|x − mean| / popStd > 3`
since `popVar > 0` — so the claim says it must be flagged, yet
`detect_anomalies` leaves every row unflagged because the sample
z-score is below the threshold. -/
def c3list : List ℚ :=
  [1, 1, 1, 1, 1, 1, 1, 1, 1, -1, -1, -1, -1, -1, -1, -1, -1, -1, Rat.divInt 9 2]

theorem c3_counterexample :
    popVar c3list ≠ 0
    ∧ c3list.getD 18 0 = Rat.divInt 9 2
    ∧ qMul (qMul 3 3) (popVar c3list) <
        qMul (qSub (c3list.getD 18 0) (listMean c3list)) (qSub (c3list.getD 18 0) (listMean c3list))
    ∧ (detect_anomalies c3list 3).getD 18 false = false := by decide

/-- C3, amended: `detect_anomalies` flags row `i` iff the *sample*
standard deviation (`ddof = 1`) is defined (at least two rows) and
non-zero and the squared z-score against it exceeds the squared
threshold; and for every set of equal amounts no row is flagged,
regardless of the threshold. -/
theorem c3_theorem :
    (∀ (xs : List ℚ) (t : ℚ) (i : Nat), i < xs.length →
      ((detect_anomalies xs t).getD i false = true ↔
        ∃ v, sampleVar xs = some v ∧ v ≠ 0 ∧
          qMul (qMul t t) v <
            qMul (qSub (xs.getD i 0) (listMean xs)) (qSub (xs.getD i 0) (listMean xs))))
    ∧ (∀ (n : Nat) (x t : ℚ), detect_anomalies (List.replicate n x) t = List.replicate n false) := by
  constructor
  · intro xs t i hi
    cases hv : sampleVar xs with
    | none =>
      simp [detect_anomalies, hv, map_false_eq_replicate, getD_replicate_false]
    | some v =>
      by_cases hv0 : v = 0
      · subst hv0
        simp [detect_anomalies, hv, map_false_eq_replicate, getD_replicate_false]
      · simp only [detect_anomalies, hv, if_neg hv0]
        rw [getD_map_of_lt _ _ _ hi]
        simp [hv, hv0]
  · intro n x t
    exact detect_replicate n x t

theorem c3_witness :
    (0 : Nat) < ([1, 2, 3] : List ℚ).length
    ∧ ((detect_anomalies [1, 2, 3] 3).getD 0 false = true ↔
        ∃ v, sampleVar [1, 2, 3] = some v ∧ v ≠ 0 ∧
          qMul (qMul 3 3) v <
            qMul (qSub (([1, 2, 3] : List ℚ).getD 0 0) (listMean [1, 2, 3]))
              (qSub (([1, 2, 3] : List ℚ).getD 0 0) (listMean [1, 2, 3]))) :=
  ⟨by decide, c3_theorem.1 [1, 2, 3] 3 0 (by decide)⟩

/-!  Helper lemmas for header detection.  -/

theorem scanHeader_none (rows : List (List Cell)) (fuel : Nat)
    (h : ∀ i, i < min fuel rows.length → rowHasKeyword (rows.getD i []) = false) :
    scanHeader fuel rows = none := by
  induction rows generalizing fuel with
  | nil => cases fuel <;> rfl
  | cons r rest ih =>
    cases fuel with
    | zero => rfl
    | succ f =>
      have h0 : rowHasKeyword r = false := by
        have := h 0 (by rw [lt_min_iff]; simp)
        simpa using this
      rw [scanHeader, if_neg (by simp [h0])]
      have hrest : scanHeader f rest = none := by
        refine ih f (fun i hi => ?_)
        rw [lt_min_iff] at hi
        have := h (i + 1) (by rw [lt_min_iff, List.length_cons]; omega)
        simpa using this
      rw [hrest]
      rfl

theorem scanHeader_some (rows : List (List Cell)) (fuel i : Nat)
    (hi : i < min fuel rows.length)
    (hk : rowHasKeyword (rows.getD i []) = true)
    (hmin : ∀ j, j < i → rowHasKeyword (rows.getD j []) = false) :
    scanHeader fuel rows = some i := by
  induction rows generalizing fuel i with
  | nil => simp at hi
  | cons r rest ih =>
    cases fuel with
    | zero => simp at hi
    | succ f =>
      cases i with
      | zero =>
        rw [scanHeader, if_pos]
        simpa using hk
      | succ j =>
        have h0 : rowHasKeyword r = false := by simpa using hmin 0 (by omega)
        rw [scanHeader, if_neg (by simp [h0])]
        rw [lt_min_iff, List.length_cons] at hi
        have hrest : scanHeader f rest = some j := by
          refine ih f j (by rw [lt_min_iff]; omega) (by simpa using hk) (fun l hl => ?_)
          simpa using hmin (l + 1) (by omega)
        rw [hrest]
        rfl

/-- C6: header detection scans at most the first 20 rows top-down; the
first row whose non-null cell values, case-folded and joined, contain a
header keyword becomes the header — its cells become the column labels
and only the rows strictly below are kept; with no match in the scan
window the table is returned unchanged. -/
theorem c6_theorem (t : Table) :
    ((∀ i, i < min 20 t.rows.length → rowHasKeyword (t.rows.getD i []) = false) →
      detect_and_skip_header t = t)
    ∧ (∀ i, i < min 20 t.rows.length → rowHasKeyword (t.rows.getD i []) = true →
        (∀ j, j < i → rowHasKeyword (t.rows.getD j []) = false) →
        detect_and_skip_header t =
          ⟨(t.rows.getD i []).map showCell, t.rows.drop (i + 1)⟩) := by
  constructor
  · intro h
    rw [detect_and_skip_header, scanHeader_none t.rows 20 h]
  · intro i hi hk hmin
    rw [detect_and_skip_header, scanHeader_some t.rows 20 i hi hk hmin]

/-- The spec's own acceptance example: six junk rows, then the genuine
header row, then data. -/
def c6Table : Table :=
  ⟨["0", "1", "2", "3"],
   [[Cell.str "acme bank"],
    [Cell.na],
    [Cell.str "statement period 01"],
    [Cell.str "account: 0011"],
    [],
    [Cell.str "opening balance 500"],
    [Cell.str "Trans. Date", Cell.str "Description", Cell.str "Debit", Cell.str "Credit"],
    [Cell.str "2024-01-05", Cell.str "salary", Cell.str "--", Cell.str "2,500"]]⟩

theorem c6_witness :
    (6 < min 20 c6Table.rows.length
      ∧ rowHasKeyword (c6Table.rows.getD 6 []) = true
      ∧ ∀ j, j < 6 → rowHasKeyword (c6Table.rows.getD j []) = false)
    ∧ detect_and_skip_header c6Table =
        ⟨["Trans. Date", "Description", "Debit", "Credit"],
         [[Cell.str "2024-01-05", Cell.str "salary", Cell.str "--", Cell.str "2,500"]]⟩ :=
  ⟨⟨by decide, by decide, by decide⟩,
   (c6_theorem c6Table).2 6 (by decide) (by decide) (by decide)⟩

/-!  Classifier characterization (C7).  -/

/-- The (category, keyword) pairs in iteration order, `"Other"` excluded
(its keyword list is empty anyway and the loop skips it). -/
def flatOf (cats : List (String × List String)) : List (String × String) :=
  cats.foldr (fun p acc => if p.1 = "Other" then acc else p.2.map (fun kw => (p.1, kw)) ++ acc) []

def flatPairs : List (String × String) := flatOf CATEGORIES

/-- The score the classifier assigns to a pair for a given description:
the fuzzy score of the lowered keyword against the lowered description. -/
def pairScore (sc : String → String → Nat) (description : String) (p : String × String) : Nat :=
  sc (strLower p.2) (strLower description)

/-- One step of the classifier's best-so-far fold. -/
def stepP (σ : String × String → Nat) (acc : String × Nat) (p : String × String) : String × Nat :=
  if σ p > acc.2 ∧ σ p > 70 then (p.1, σ p) else acc

/-- Maximum score over a pair list (0 for the empty list). -/
def maxScoreList (σ : String × String → Nat) : List (String × String) → Nat
  | [] => 0
  | p :: t => max (σ p) (maxScoreList σ t)

/-- The category of the first pair attaining score `M`. -/
def firstAttain (σ : String × String → Nat) (M : Nat) : List (String × String) → String
  | [] => "Other"
  | p :: t => if σ p = M then p.1 else firstAttain σ M t

theorem foldl_stepP (σ : String × String → Nat) (l : List (String × String)) :
    ∀ c s, List.foldl (stepP σ) (c, s) l =
      if 70 < maxScoreList σ l ∧ s < maxScoreList σ l then
        (firstAttain σ (maxScoreList σ l) l, maxScoreList σ l)
      else (c, s) := by
  induction l with
  | nil =>
    intro c s
    simp [maxScoreList]
  | cons p tl ih =>
    intro c s
    rw [List.foldl_cons]
    have hM : maxScoreList σ (p :: tl) = max (σ p) (maxScoreList σ tl) := rfl
    by_cases hup : s < σ p ∧ 70 < σ p
    · have hstep : stepP σ (c, s) p = (p.1, σ p) := by
        rw [stepP]
        exact if_pos hup
      rw [hstep, ih p.1 (σ p), hM]
      rcases Nat.lt_or_ge (σ p) (maxScoreList σ tl) with hlt | hge
      · rw [max_eq_right hlt.le]
        rw [if_pos ⟨lt_trans hup.2 hlt, hlt⟩, if_pos ⟨lt_trans hup.2 hlt, lt_trans hup.1 hlt⟩]
        rw [firstAttain, if_neg (Nat.ne_of_lt hlt)]
      · rw [max_eq_left hge]
        rw [if_neg (by omega), if_pos ⟨hup.2, hup.1⟩]
        rw [firstAttain, if_pos rfl]
    · have hstep : stepP σ (c, s) p = (c, s) := by
        rw [stepP]
        exact if_neg hup
      rw [hstep, ih c s, hM]
      by_cases hc : 70 < maxScoreList σ tl ∧ s < maxScoreList σ tl
      · have hplt : σ p < maxScoreList σ tl := by omega
        rw [if_pos hc, max_eq_right hplt.le, if_pos hc]
        rw [firstAttain, if_neg (Nat.ne_of_lt hplt)]
      · rw [if_neg hc, if_neg (by omega)]

theorem nested_foldl_eq (σ : String × String → Nat) (cats : List (String × List String)) :
    ∀ acc : String × Nat,
      List.foldl (fun a p => if p.1 = "Other" then a
          else List.foldl (fun a2 kw => stepP σ a2 (p.1, kw)) a p.2) acc cats
      = List.foldl (stepP σ) acc (flatOf cats) := by
  induction cats with
  | nil => intro acc; rfl
  | cons p tl ih =>
    intro acc
    have hflat : flatOf (p :: tl) =
        if p.1 = "Other" then flatOf tl else p.2.map (fun kw => (p.1, kw)) ++ flatOf tl := rfl
    rw [List.foldl_cons, hflat]
    by_cases hp : p.1 = "Other"
    · rw [if_pos hp, if_pos hp]
      exact ih _
    · rw [if_neg hp, if_neg hp, List.foldl_append, List.foldl_map]
      exact ih _

theorem categorize_eq_foldl (sc : String → String → Nat) (d : String) :
    categorize_transaction sc d
      = (List.foldl (stepP (pairScore sc d)) ("Other", 0) flatPairs).1 := by
  show (List.foldl (fun a p => if p.1 = "Other" then a
      else List.foldl (fun a2 kw => stepP (pairScore sc d) a2 (p.1, kw)) a p.2)
      ("Other", 0) CATEGORIES).1 = _
  rw [nested_foldl_eq]
  rfl

/-- C7: for every scorer and description, the classifier returns
`"Other"` when no (category, keyword) pair — `"Other"` is never
scored — reaches a score above 70, and otherwise returns the category of
the first pair (in catalog iteration order) attaining the maximal score,
so a tie on the maximum resolves to the earlier category. -/
theorem c7_theorem (sc : String → String → Nat) (description : String) :
    (maxScoreList (pairScore sc description) flatPairs ≤ 70 →
      categorize_transaction sc description = "Other")
    ∧ (70 < maxScoreList (pairScore sc description) flatPairs →
      categorize_transaction sc description =
        firstAttain (pairScore sc description)
          (maxScoreList (pairScore sc description) flatPairs) flatPairs) := by
  constructor
  · intro h
    rw [categorize_eq_foldl, foldl_stepP, if_neg (by omega)]
  · intro h
    rw [categorize_eq_foldl, foldl_stepP, if_pos ⟨h, by omega⟩]

set_option maxRecDepth 4000 in
theorem c7_witness :
    70 < maxScoreList (pairScore (fun _ _ => 100) "zz") flatPairs
    ∧ categorize_transaction (fun _ _ => 100) "zz" =
        firstAttain (pairScore (fun _ _ => 100) "zz")
          (maxScoreList (pairScore (fun _ _ => 100) "zz") flatPairs) flatPairs :=
  ⟨by decide, (c7_theorem (fun _ _ => 100) "zz").2 (by decide)⟩

/-!  Reconciliation lemmas (C4).  -/

/-- The cells of the (first) column with the given label. -/
def colAt (t : Table) (name : String) : Option (List Cell) :=
  (colIdx t.cols name).map (fun j => t.rows.map (fun r => getCell r j))

theorem padTo_length (n : Nat) (r : List Cell) : (padTo n r).length = n := by
  simp [padTo]
  omega

theorem colIdx_lt_length {cs : List String} {name : String} {j : Nat}
    (h : colIdx cs name = some j) : j < cs.length := by
  induction cs generalizing j with
  | nil => cases h
  | cons c t ih =>
    rw [colIdx] at h
    by_cases hc : c = name
    · rw [if_pos hc] at h
      cases h
      simp
    · rw [if_neg hc] at h
      cases hrec : colIdx t name with
      | none => rw [hrec] at h; cases h
      | some j2 =>
        rw [hrec] at h
        have hj : j = j2 + 1 := (Option.some.inj h).symm
        subst hj
        have := ih hrec
        simp
        omega

theorem colIdx_append_self {cs : List String} {name : String}
    (h : colIdx cs name = none) : colIdx (cs ++ [name]) name = some cs.length := by
  induction cs with
  | nil => simp [colIdx]
  | cons c t ih =>
    rw [colIdx] at h
    by_cases hc : c = name
    · rw [if_pos hc] at h
      cases h
    · rw [if_neg hc] at h
      have hrec : colIdx t name = none := by
        cases hrec : colIdx t name with
        | none => rfl
        | some j2 => rw [hrec] at h; cases h
      rw [List.cons_append, colIdx, if_neg hc, ih hrec]
      rfl

theorem getCell_set_self (l : List Cell) (j : Nat) (v : Cell) (h : j < l.length) :
    getCell (l.set j v) j = v := by
  induction l generalizing j with
  | nil => simp at h
  | cons c t ih =>
    cases j with
    | zero => rfl
    | succ k =>
      have hk : k < t.length := by simpa using h
      simpa [getCell] using ih k hk

theorem getCell_append_len (l : List Cell) (v : Cell) : getCell (l ++ [v]) l.length = v := by
  induction l with
  | nil => rfl
  | cons c t ih => exact ih

theorem map_zip_proj (fp : List Cell × Cell → List Cell) (g : List Cell → Cell)
    (hfg : ∀ p, g (fp p) = p.2) :
    ∀ (l1 : List (List Cell)) (l2 : List Cell), l2.length = l1.length →
      ((l1.zip l2).map fp).map g = l2 := by
  intro l1
  induction l1 with
  | nil =>
    intro l2 h
    rw [List.length_nil, List.length_eq_zero] at h
    subst h
    rfl
  | cons a t ih =>
    intro l2 h
    cases l2 with
    | nil => simp at h
    | cons b t2 =>
      have ht : t2.length = t.length := by simpa using h
      simp [hfg, ih t2 ht]

theorem colAt_setAmount (t : Table) (vals : List Cell) (h : vals.length = t.rows.length) :
    colAt (setAmount t vals) "amount" = some vals := by
  cases hj : colIdx t.cols "amount" with
  | some j =>
    have hjl := colIdx_lt_length hj
    simp only [setAmount, hj, colAt]
    simp only [Option.map_some']
    congr 1
    refine map_zip_proj _ _ (fun p => ?_) t.rows vals h
    exact getCell_set_self _ j p.2 (by rw [padTo_length]; exact hjl)
  | none =>
    simp only [setAmount, hj, colAt]
    rw [colIdx_append_self hj]
    simp only [Option.map_some']
    congr 1
    refine map_zip_proj _ _ (fun p => ?_) t.rows vals h
    have := getCell_append_len (padTo t.cols.length p.1) p.2
    rwa [padTo_length] at this

/-- C4: when both a `debit` and a `credit` column are present after
mapping, the reconciled `amount` column holds, for every row, the parsed
credit value minus the parsed debit value (`qSub` is genuine rational
subtraction); the parse strips thousands-separator commas and maps
missing cells, blank cells and the `"--"` placeholder to zero, giving
the spec's three concrete examples. -/
theorem c4_theorem (t : Table) (jd jc : Nat)
    (hd : colIdx t.cols "debit" = some jd) (hc : colIdx t.cols "credit" = some jc) :
    colAt (reconcile t) "amount" =
      some (t.rows.map (fun r =>
        Cell.num (qSub (parseMoney (getCell r jc)) (parseMoney (getCell r jd)))))
    ∧ (∀ a b : ℚ, qSub a b = a - b)
    ∧ parseMoney Cell.na = 0 ∧ parseMoney (Cell.str "") = 0 ∧ parseMoney (Cell.str "--") = 0
    ∧ parseMoney (Cell.str "2,500") = 2500
    ∧ qSub (parseMoney (Cell.str "0")) (parseMoney (Cell.str "1000")) = -1000
    ∧ qSub (parseMoney (Cell.str "1000")) (parseMoney (Cell.str "0")) = 1000
    ∧ qSub (parseMoney (Cell.str "2,500")) (parseMoney (Cell.str "--")) = 2500 := by
  refine ⟨?_, qSub_eq, by decide, by decide, by decide, by decide, by decide, by decide, by decide⟩
  simp only [reconcile, hd, hc]
  refine colAt_setAmount _ _ ?_
  simp [dropByLabel, keepPositions]

def c4Table : Table := ⟨["debit", "credit"], [[Cell.str "1,000", Cell.na]]⟩

theorem c4_witness :
    (colIdx c4Table.cols "debit" = some 0 ∧ colIdx c4Table.cols "credit" = some 1)
    ∧ colAt (reconcile c4Table) "amount"
        = some (c4Table.rows.map (fun r =>
            Cell.num (qSub (parseMoney (getCell r 1)) (parseMoney (getCell r 0))))) :=
  ⟨⟨by decide, by decide⟩, (c4_theorem c4Table 0 1 (by decide) (by decide)).1⟩

/-!  Category statistics (C8).  -/

/-- C8, counterexample: on totals Income 50000, Food −12000, Transport
−8000 the code orders descending by *signed* total, i.e.
[Income, Transport, Food] — not the claimed [Income, Food, Transport]
(which is absolute-magnitude order). -/
def c8example : List (String × ℚ) :=
  [("Income", 50000), ("Food", -12000), ("Transport", -8000)]

theorem c8_counterexample :
    (calculate_category_stats c8example).map (fun s => s.category)
      = ["Income", "Transport", "Food"]
    ∧ (["Income", "Transport", "Food"] : List String) ≠ ["Income", "Food", "Transport"] := by
  decide

/-- C8, amended: `calculate_category_stats` groups by category (one row
per distinct category, holding the rounded sum/mean and the count of its
amounts) and orders the rows by signed total descending; on the example
totals Income 50000, Food −12000, Transport −8000 the order is
[Income, Transport, Food]. -/
theorem c8_theorem (txs : List (String × ℚ)) :
    List.Sorted catGE (calculate_category_stats txs)
    ∧ (calculate_category_stats txs).Perm
        ((uniqueKeys (txs.map (fun p => p.1))).map (statsFor txs))
    ∧ (∀ s ∈ calculate_category_stats txs, s = statsFor txs s.category)
    ∧ (calculate_category_stats c8example).map (fun s => s.category)
        = ["Income", "Transport", "Food"] := by
  refine ⟨?_, ?_, ?_, by decide⟩
  · exact List.sorted_insertionSort catGE _
  · exact List.perm_insertionSort catGE _
  · intro s hs
    have hmem : s ∈ (uniqueKeys (txs.map (fun p => p.1))).map (statsFor txs) :=
      (List.perm_insertionSort catGE _).mem_iff.mp hs
    obtain ⟨k, _, hk⟩ := List.mem_map.mp hmem
    have hcat : s.category = k := by
      rw [← hk]
      rfl
    rw [hcat, hk]

theorem c8_witness :
    (⟨"Income", 50000, 50000, 1⟩ : CatStat) ∈ calculate_category_stats c8example
    ∧ (⟨"Income", 50000, 50000, 1⟩ : CatStat)
        = statsFor c8example (⟨"Income", 50000, 50000, 1⟩ : CatStat).category :=
  ⟨by decide, (c8_theorem c8example).2.2.1 ⟨"Income", 50000, 50000, 1⟩ (by decide)⟩

